import Mathlib

/-!
Verification of the AMM synthetic order-book builder
(`skills/nt-dex-adapter/templates/dex_order_book_builder.py`) and the A2A
envelope module (`skills/brainstorming_evomap/envelope.py`).

Modelling conventions:
* Python `float` arithmetic is embedded as exact rational arithmetic (`ℚ`);
  the claims are about the algebraic content of the formulas.
* `float("inf")` is `⊤ : WithTop ℚ`.
* A raised `ValueError` is `Except.error msg`.
* The Python `for i in range(1, num_levels + 1)` loop with `break` is a
  fuel-based recursion; `num_levels : ℤ` with fuel `num_levels.toNat`
  mirrors `range`, which is empty for non-positive bounds.
* Python `dict[str, Any]` is an association list with first-match lookup;
  the `Any` values are a sum of strings and an abstract payload type.
-/

namespace DexOrderBook

/-- One iteration block of the `for i in range(1, num_levels + 1)` loop of
`calculate_amm_price_levels`, with `fuel` remaining iterations and current
index `i`.  `break` on `reserve0 - trade_size <= 0` discards the rest; each
surviving iteration appends one ask level and one bid level when
`trade_size > 0`. -/
def ammLoop (reserve0 reserve1 k fee_rate size_step : ℚ) :
    ℕ → ℕ → List (ℚ × ℚ) × List (ℚ × ℚ)
  | _, 0 => ([], [])
  | i, fuel + 1 =>
    let trade_size := reserve0 * size_step * (i : ℚ)
    if reserve0 - trade_size ≤ 0 then ([], [])
    else
      let new_reserve1_ask := k / (reserve0 - trade_size)
      let amount_in_token1 := new_reserve1_ask - reserve1
      let amount_in_with_fee := amount_in_token1 / (1 - fee_rate)
      let ask_here :=
        if 0 < trade_size then [(amount_in_with_fee / trade_size, trade_size)] else []
      let amount_in_adjusted := trade_size * (1 - fee_rate)
      let new_reserve1_bid := k / (reserve0 + amount_in_adjusted)
      let amount_out_token1 := reserve1 - new_reserve1_bid
      let bid_here :=
        if 0 < trade_size then [(amount_out_token1 / trade_size, trade_size)] else []
      let rest := ammLoop reserve0 reserve1 k fee_rate size_step (i + 1) fuel
      (bid_here ++ rest.1, ask_here ++ rest.2)

/-- `calculate_amm_price_levels`: synthetic `(bid_levels, ask_levels)` from
pool reserves; degenerate reserves short-circuit to two empty lists before
any arithmetic. -/
def calculate_amm_price_levels (reserve0 reserve1 fee_rate : ℚ)
    (num_levels : ℤ) (size_step : ℚ) :
    List (ℚ × ℚ) × List (ℚ × ℚ) :=
  if reserve0 ≤ 0 ∨ reserve1 ≤ 0 then ([], [])
  else ammLoop reserve0 reserve1 (reserve0 * reserve1) fee_rate size_step 1 num_levels.toNat

/-- `amm_spot_price`: raises `ValueError` exactly when `reserve0 == 0`,
otherwise returns `reserve1 / reserve0`. -/
def amm_spot_price (reserve0 reserve1 : ℚ) : Except String ℚ :=
  if reserve0 = 0 then
    Except.error "reserve0 is zero — cannot calculate price from empty pool"
  else Except.ok (reserve1 / reserve0)

/-- `amm_execution_price`: effective execution price for a trade of size
`amount_in`; `float("inf")` is `⊤`. -/
def amm_execution_price (reserve0 reserve1 amount_in fee_rate : ℚ)
    (is_buy : Bool) : WithTop ℚ :=
  let k := reserve0 * reserve1
  if is_buy then
    let amount_in_adjusted := amount_in * (1 - fee_rate)
    let new_reserve1 := reserve1 + amount_in_adjusted
    let new_reserve0 := k / new_reserve1
    let amount_out := reserve0 - new_reserve0
    if 0 < amount_out then ((amount_in / amount_out : ℚ) : WithTop ℚ) else ⊤
  else
    let amount_in_adjusted := amount_in * (1 - fee_rate)
    let new_reserve0 := reserve0 + amount_in_adjusted
    let new_reserve1 := k / new_reserve0
    let amount_out := reserve1 - new_reserve1
    if 0 < amount_in then ((amount_out / amount_in : ℚ) : WithTop ℚ) else ((0 : ℚ) : WithTop ℚ)

/-- The execution-price reference formula written from the spec's words:
with `k = reserve0 * reserve1`, a buy returns `amountIn / amountOut` where
`amountOut = reserve0 - k / (reserve1 + amountIn * (1 - feeRate))` when
`amountOut > 0` and `+infinity` otherwise; a sell mirrors the roles of the
reserves and returns `0.0` for a zero-size trade. -/
def spec_execution_price (reserve0 reserve1 amount_in fee_rate : ℚ)
    (is_buy : Bool) : WithTop ℚ :=
  let k := reserve0 * reserve1
  if is_buy then
    let amountOut := reserve0 - k / (reserve1 + amount_in * (1 - fee_rate))
    if 0 < amountOut then ((amount_in / amountOut : ℚ) : WithTop ℚ) else ⊤
  else
    if 0 < amount_in then
      (((reserve1 - k / (reserve0 + amount_in * (1 - fee_rate))) / amount_in : ℚ) : WithTop ℚ)
    else ((0 : ℚ) : WithTop ℚ)

end DexOrderBook

namespace Envelope

/-- A value stored in an A2A envelope dict: a string, or the (abstract)
payload object. -/
inductive EnvValue (α : Type) where
  | str (s : String)
  | payload (p : α)
deriving DecidableEq

/-- `PROTOCOL = "gep-a2a"`. -/
def PROTOCOL : String := "gep-a2a"

/-- `PROTOCOL_VERSION = "1.0.0"`. -/
def PROTOCOL_VERSION : String := "1.0.0"

/-- The seven required envelope fields checked by `validate_envelope`. -/
def required_fields : List String :=
  ["protocol", "protocol_version", "message_type", "message_id",
   "sender_id", "timestamp", "payload"]

/-- `build_envelope`: the `None` defaults for `message_id` and `timestamp`
are modelled by explicit `Option` arguments together with the values
`genId`/`genTs` the generators would produce. -/
def build_envelope {α : Type} (message_type sender_id : String) (payload : α)
    (message_id? timestamp? : Option String) (genId genTs : String) :
    List (String × EnvValue α) :=
  let message_id := message_id?.getD genId
  let timestamp := timestamp?.getD genTs
  [("protocol", EnvValue.str PROTOCOL),
   ("protocol_version", EnvValue.str PROTOCOL_VERSION),
   ("message_type", EnvValue.str message_type),
   ("message_id", EnvValue.str message_id),
   ("sender_id", EnvValue.str sender_id),
   ("timestamp", EnvValue.str timestamp),
   ("payload", EnvValue.payload payload)]

/-- `validate_envelope`: collects missing-field errors in order, then the
protocol and protocol-version mismatch errors; returns
`(len(errors) == 0, errors)`.  `showVal` renders a value inside an error
message (Python f-string formatting). -/
def validate_envelope {α : Type} [DecidableEq α] (showVal : EnvValue α → String)
    (envelope : List (String × EnvValue α)) : Bool × List String :=
  let missing := required_fields.filterMap fun fld =>
    if (envelope.lookup fld).isNone then
      some ("Missing required field: " ++ fld)
    else none
  let errs1 :=
    match envelope.lookup "protocol" with
    | some v =>
      if v ≠ EnvValue.str PROTOCOL then
        missing ++ ["Invalid protocol: expected " ++ PROTOCOL ++ ", got " ++ showVal v]
      else missing
    | none => missing
  let errs2 :=
    match envelope.lookup "protocol_version" with
    | some v =>
      if v ≠ EnvValue.str PROTOCOL_VERSION then
        errs1 ++ ["Invalid protocol_version: expected " ++ PROTOCOL_VERSION ++ ", got " ++ showVal v]
      else errs1
    | none => errs1
  (errs2.length == 0, errs2)

end Envelope

namespace DexOrderBook

/-- Both sides of `ammLoop` grow in lock-step: each iteration either breaks
before touching the lists or appends to both under the same
`trade_size > 0` guard. -/
theorem ammLoop_length_eq (r0 r1 k f s : ℚ) (fuel : ℕ) :
    ∀ i : ℕ, (ammLoop r0 r1 k f s i fuel).1.length =
      (ammLoop r0 r1 k f s i fuel).2.length := by
  induction fuel with
  | zero => intro i; rfl
  | succ m ih =>
    intro i
    simp only [ammLoop]
    by_cases hbr : r0 - r0 * s * (i : ℚ) ≤ 0
    · rw [if_pos hbr]
    · rw [if_neg hbr]
      by_cases ht : (0 : ℚ) < r0 * s * (i : ℚ)
      · simp [if_pos ht, ih (i + 1)]
      · simp [if_neg ht, ih (i + 1)]

/-- C2: `amm_execution_price` computes exactly the spec's constant-product
reference formula, in both directions, for all inputs. -/
theorem amm_execution_price_eq_spec (r0 r1 a f : ℚ) (is_buy : Bool) :
    amm_execution_price r0 r1 a f is_buy = spec_execution_price r0 r1 a f is_buy := by
  cases is_buy <;> rfl

/-- C6: for `reserve0 > 0`, `amm_spot_price` returns exactly
`reserve1 / reserve0` (the embedding is a pure function, so there are no
side effects). -/
theorem amm_spot_price_of_pos (r0 r1 : ℚ) (h : 0 < r0) :
    amm_spot_price r0 r1 = Except.ok (r1 / r0) := by
  simp [amm_spot_price, h.ne']

/-- Witness for C6 at `reserve0 = 10`, `reserve1 = 30`. -/
theorem amm_spot_price_of_pos_witness :
    amm_spot_price 10 30 = Except.ok (30 / 10) :=
  amm_spot_price_of_pos 10 30 (by norm_num)

/-- Counterexample to C7 as stated: a strictly negative `reserve0` does NOT
raise; `amm_spot_price (-1, 1)` returns `-1` normally, because the code only
guards `reserve0 == 0`. -/
theorem amm_spot_price_neg_reserve_ok :
    amm_spot_price (-1) 1 = Except.ok (-1) := by
  norm_num [amm_spot_price]

/-- C7 (amended): for `reserve0 == 0` and any `reserve1`, `amm_spot_price`
raises a domain error whose message contains `"reserve0 is zero"`. -/
theorem amm_spot_price_zero_reserve_error (r0 r1 : ℚ) (h : r0 = 0) :
    amm_spot_price r0 r1 =
      Except.error ("reserve0 is zero" ++ " — cannot calculate price from empty pool") := by
  subst h; rfl

/-- Witness for the amended C7 at `reserve0 = 0`, `reserve1 = 7`. -/
theorem amm_spot_price_zero_reserve_error_witness :
    amm_spot_price 0 7 =
      Except.error ("reserve0 is zero" ++ " — cannot calculate price from empty pool") :=
  amm_spot_price_zero_reserve_error 0 7 rfl

/-- C8: degenerate reserves (`reserve0 <= 0` or `reserve1 <= 0`) return two
empty lists immediately, for every fee rate, level count and size step; the
early return precedes every division, so nothing can raise. -/
theorem calculate_amm_price_levels_degenerate (r0 r1 f : ℚ) (n : ℤ) (s : ℚ)
    (h : r0 ≤ 0 ∨ r1 ≤ 0) :
    calculate_amm_price_levels r0 r1 f n s = ([], []) := by
  simp only [calculate_amm_price_levels, if_pos h]

/-- Witness for C8 at the spec's example `reserve0 = 0`,
`reserve1 = 3_000_000`, `fee_rate = 0.003`. -/
theorem calculate_amm_price_levels_degenerate_witness :
    calculate_amm_price_levels 0 3000000 (3 / 1000) 10 (1 / 10) = ([], []) :=
  calculate_amm_price_levels_degenerate 0 3000000 (3 / 1000) 10 (1 / 10) (Or.inl le_rfl)

/-- C9: for every input, the bid list and the ask list returned by
`calculate_amm_price_levels` have equal length. -/
theorem calculate_amm_price_levels_length_eq (r0 r1 f : ℚ) (n : ℤ) (s : ℚ) :
    (calculate_amm_price_levels r0 r1 f n s).1.length =
      (calculate_amm_price_levels r0 r1 f n s).2.length := by
  unfold calculate_amm_price_levels
  by_cases h : r0 ≤ 0 ∨ r1 ≤ 0
  · rw [if_pos h]
  · rw [if_neg h]
    exact ammLoop_length_eq r0 r1 (r0 * r1) f s n.toNat 1

end DexOrderBook

namespace Envelope

/-- C10: an envelope produced by `build_envelope` always validates:
`validate_envelope` finds all seven required fields and the protocol and
protocol-version constants, so it returns `(True, [])`. -/
theorem validate_build_envelope_roundtrip {α : Type} [DecidableEq α]
    (showVal : EnvValue α → String) (message_type sender_id : String) (payload : α)
    (message_id? timestamp? : Option String) (genId genTs : String) :
    validate_envelope showVal
      (build_envelope message_type sender_id payload message_id? timestamp? genId genTs)
      = (true, []) := rfl

/-- Witness for C10 at a concrete envelope. -/
theorem validate_build_envelope_roundtrip_witness :
    validate_envelope (fun _ => "")
      (build_envelope "publish" "node_1" (0 : ℕ) none none "m" "t") = (true, []) :=
  validate_build_envelope_roundtrip (fun _ => "") "publish" "node_1" (0 : ℕ) none none "m" "t"

end Envelope

namespace DexOrderBook

/-- Closed form of the buy execution price for a positive trade against a
live pool: `(r1 + a*(1-f)) / (r0*(1-f))`. -/
theorem exec_buy_eq (r0 r1 a f : ℚ) (h0 : 0 < r0) (h1 : 0 < r1)
    (hf1 : f < 1) (ha : 0 < a) :
    amm_execution_price r0 r1 a f true =
      (((r1 + a * (1 - f)) / (r0 * (1 - f)) : ℚ) : WithTop ℚ) := by
  have h1f : (0 : ℚ) < 1 - f := by linarith
  have hx : (0 : ℚ) < a * (1 - f) := mul_pos ha h1f
  have hden : (0 : ℚ) < r1 + a * (1 - f) := by linarith
  have hstart : amm_execution_price r0 r1 a f true =
      (if 0 < r0 - r0 * r1 / (r1 + a * (1 - f)) then
        ((a / (r0 - r0 * r1 / (r1 + a * (1 - f))) : ℚ) : WithTop ℚ) else ⊤) := rfl
  have hout : r0 - r0 * r1 / (r1 + a * (1 - f)) =
      r0 * (a * (1 - f)) / (r1 + a * (1 - f)) := by
    field_simp
    ring
  rw [hstart, hout, if_pos (by positivity), WithTop.coe_eq_coe,
    div_div_eq_mul_div, div_eq_div_iff (by positivity) (by positivity)]
  ring

/-- Closed form of the sell execution price for a positive trade against a
live pool: `r1*(1-f) / (r0 + a*(1-f))`. -/
theorem exec_sell_eq (r0 r1 a f : ℚ) (h0 : 0 < r0) (h1 : 0 < r1)
    (hf1 : f < 1) (ha : 0 < a) :
    amm_execution_price r0 r1 a f false =
      (((r1 * (1 - f)) / (r0 + a * (1 - f)) : ℚ) : WithTop ℚ) := by
  have h1f : (0 : ℚ) < 1 - f := by linarith
  have hden : (0 : ℚ) < r0 + a * (1 - f) := by positivity
  have hstart : amm_execution_price r0 r1 a f false =
      (if 0 < a then
        (((r1 - r0 * r1 / (r0 + a * (1 - f))) / a : ℚ) : WithTop ℚ)
      else ((0 : ℚ) : WithTop ℚ)) := rfl
  rw [hstart, if_pos ha, WithTop.coe_eq_coe]
  field_simp
  ring

/-- C3: for a live pool, fee in `[0, 1)` and any positive trade size, the
buy execution price is strictly above the spot price returned by
`amm_spot_price`, and the sell execution price is strictly below it. -/
theorem amm_execution_price_vs_spot (r0 r1 a f sp : ℚ)
    (h0 : 0 < r0) (h1 : 0 < r1) (hf0 : 0 ≤ f) (hf1 : f < 1) (ha : 0 < a)
    (hs : amm_spot_price r0 r1 = Except.ok sp) :
    ((sp : ℚ) : WithTop ℚ) < amm_execution_price r0 r1 a f true ∧
      amm_execution_price r0 r1 a f false < ((sp : ℚ) : WithTop ℚ) := by
  have h1f : (0 : ℚ) < 1 - f := by linarith
  rw [amm_spot_price, if_neg h0.ne'] at hs
  have hsp : sp = r1 / r0 := by
    cases hs
    rfl
  subst hsp
  rw [exec_buy_eq r0 r1 a f h0 h1 hf1 ha, exec_sell_eq r0 r1 a f h0 h1 hf1 ha]
  constructor
  · rw [WithTop.coe_lt_coe, div_lt_div_iff₀ h0 (by positivity)]
    nlinarith [mul_pos (mul_pos ha h1f) h0, mul_nonneg (mul_nonneg h1.le h0.le) hf0]
  · rw [WithTop.coe_lt_coe, div_lt_div_iff₀ (by positivity) h0]
    nlinarith [mul_pos (mul_pos ha h1f) h1, mul_nonneg (mul_nonneg h1.le h0.le) hf0]

/-- Witness for C3 at `reserve0 = 10`, `reserve1 = 30`, `amount_in = 1`,
`fee_rate = 0.01`, spot price `3`. -/
theorem amm_execution_price_vs_spot_witness :
    ((3 : ℚ) : WithTop ℚ) < amm_execution_price 10 30 1 (1 / 100) true ∧
      amm_execution_price 10 30 1 (1 / 100) false < ((3 : ℚ) : WithTop ℚ) :=
  amm_execution_price_vs_spot 10 30 1 (1 / 100) 3 (by norm_num) (by norm_num)
    (by norm_num) (by norm_num) (by norm_num) (by norm_num [amm_spot_price])

/-- C4: for fixed live reserves and a fee in `[0, 1)`, the execution price
is strictly monotone in the trade size, in the trader's disfavor: a larger
buy executes strictly higher, a larger sell strictly lower. -/
theorem amm_execution_price_strict_mono (r0 r1 f a1 a2 : ℚ)
    (h0 : 0 < r0) (h1 : 0 < r1) (hf0 : 0 ≤ f) (hf1 : f < 1)
    (ha1 : 0 < a1) (h12 : a1 < a2) :
    amm_execution_price r0 r1 a1 f true < amm_execution_price r0 r1 a2 f true ∧
      amm_execution_price r0 r1 a2 f false < amm_execution_price r0 r1 a1 f false := by
  have h1f : (0 : ℚ) < 1 - f := by linarith
  have ha2 : 0 < a2 := lt_trans ha1 h12
  rw [exec_buy_eq r0 r1 a1 f h0 h1 hf1 ha1, exec_buy_eq r0 r1 a2 f h0 h1 hf1 ha2,
    exec_sell_eq r0 r1 a1 f h0 h1 hf1 ha1, exec_sell_eq r0 r1 a2 f h0 h1 hf1 ha2]
  constructor
  · rw [WithTop.coe_lt_coe, div_lt_div_iff₀ (by positivity) (by positivity)]
    nlinarith [mul_pos (mul_pos h0 h1f) (mul_pos (sub_pos.mpr h12) h1f)]
  · rw [WithTop.coe_lt_coe, div_lt_div_iff₀ (by positivity) (by positivity)]
    nlinarith [mul_pos (mul_pos h1 h1f) (mul_pos (sub_pos.mpr h12) h1f)]

/-- Witness for C4: buying `100` costs strictly more per unit than buying
`0.1`, and selling `100` earns strictly less per unit than selling `0.1`
(`reserve0 = 10`, `reserve1 = 30`, `fee_rate = 0.003`). -/
theorem amm_execution_price_strict_mono_witness :
    amm_execution_price 10 30 (1 / 10) (3 / 1000) true <
        amm_execution_price 10 30 100 (3 / 1000) true ∧
      amm_execution_price 10 30 100 (3 / 1000) false <
        amm_execution_price 10 30 (1 / 10) (3 / 1000) false :=
  amm_execution_price_strict_mono 10 30 (3 / 1000) (1 / 10) 100 (by norm_num)
    (by norm_num) (by norm_num) (by norm_num) (by norm_num) (by norm_num)

end DexOrderBook

namespace DexOrderBook

/-- Every ask level produced by `ammLoop` comes from some iteration `m ≥ i`
that passed both the break guard and the `trade_size > 0` guard, and
carries the code's ask-price formula at `trade_size = r0 * s * m`. -/
theorem mem_ammLoop_asks (r0 r1 k f s : ℚ) (fuel : ℕ) :
    ∀ i : ℕ, ∀ pt ∈ (ammLoop r0 r1 k f s i fuel).2,
      ∃ m : ℕ, i ≤ m ∧ 0 < r0 * s * (m : ℚ) ∧ 0 < r0 - r0 * s * (m : ℚ) ∧
        pt = ((k / (r0 - r0 * s * (m : ℚ)) - r1) / (1 - f) / (r0 * s * (m : ℚ)),
              r0 * s * (m : ℚ)) := by
  induction fuel with
  | zero => intro i pt hpt; simp [ammLoop] at hpt
  | succ n ih =>
    intro i pt hpt
    simp only [ammLoop] at hpt
    by_cases hbr : r0 - r0 * s * (i : ℚ) ≤ 0
    · rw [if_pos hbr] at hpt
      simp at hpt
    · rw [if_neg hbr] at hpt
      rcases List.mem_append.mp hpt with h | h
      · by_cases ht : (0 : ℚ) < r0 * s * (i : ℚ)
        · rw [if_pos ht] at h
          rw [List.mem_singleton] at h
          exact ⟨i, le_refl i, ht, lt_of_not_le hbr, h⟩
        · rw [if_neg ht] at h
          simp at h
      · obtain ⟨m, hm, hrest⟩ := ih (i + 1) pt h
        exact ⟨m, le_trans (Nat.le_succ i) hm, hrest⟩

/-- Bid-side analogue of `mem_ammLoop_asks`: every bid level carries the
code's bid-price formula at its iteration's trade size. -/
theorem mem_ammLoop_bids (r0 r1 k f s : ℚ) (fuel : ℕ) :
    ∀ i : ℕ, ∀ pt ∈ (ammLoop r0 r1 k f s i fuel).1,
      ∃ m : ℕ, i ≤ m ∧ 0 < r0 * s * (m : ℚ) ∧ 0 < r0 - r0 * s * (m : ℚ) ∧
        pt = ((r1 - k / (r0 + r0 * s * (m : ℚ) * (1 - f))) / (r0 * s * (m : ℚ)),
              r0 * s * (m : ℚ)) := by
  induction fuel with
  | zero => intro i pt hpt; simp [ammLoop] at hpt
  | succ n ih =>
    intro i pt hpt
    simp only [ammLoop] at hpt
    by_cases hbr : r0 - r0 * s * (i : ℚ) ≤ 0
    · rw [if_pos hbr] at hpt
      simp at hpt
    · rw [if_neg hbr] at hpt
      rcases List.mem_append.mp hpt with h | h
      · by_cases ht : (0 : ℚ) < r0 * s * (i : ℚ)
        · rw [if_pos ht] at h
          rw [List.mem_singleton] at h
          exact ⟨i, le_refl i, ht, lt_of_not_le hbr, h⟩
        · rw [if_neg ht] at h
          simp at h
      · obtain ⟨m, hm, hrest⟩ := ih (i + 1) pt h
        exact ⟨m, le_trans (Nat.le_succ i) hm, hrest⟩

/-- The code's ask-price formula at any admissible trade size lies strictly
above the spot price `r1 / r0`. -/
theorem askFormula_gt_spot (r0 r1 f t : ℚ) (h0 : 0 < r0) (h1 : 0 < r1)
    (hf0 : 0 ≤ f) (hf1 : f < 1) (ht : 0 < t) (htr : 0 < r0 - t) :
    r1 / r0 < (r0 * r1 / (r0 - t) - r1) / (1 - f) / t := by
  have h1f : (0 : ℚ) < 1 - f := by linarith
  have key : (r0 * r1 / (r0 - t) - r1) / (1 - f) / t = r1 / ((r0 - t) * (1 - f)) := by
    field_simp
    ring
  rw [key, div_lt_div_iff₀ h0 (by positivity)]
  nlinarith [mul_pos (mul_pos h1 ht) h1f, mul_nonneg (mul_nonneg h1.le h0.le) hf0]

/-- The code's bid-price formula at any positive trade size lies strictly
below the spot price `r1 / r0`. -/
theorem bidFormula_lt_spot (r0 r1 f t : ℚ) (h0 : 0 < r0) (h1 : 0 < r1)
    (hf0 : 0 ≤ f) (hf1 : f < 1) (ht : 0 < t) :
    (r1 - r0 * r1 / (r0 + t * (1 - f))) / t < r1 / r0 := by
  have h1f : (0 : ℚ) < 1 - f := by linarith
  have hD : (0 : ℚ) < r0 + t * (1 - f) := by positivity
  have key : (r1 - r0 * r1 / (r0 + t * (1 - f))) / t = r1 * (1 - f) / (r0 + t * (1 - f)) := by
    field_simp
    ring
  rw [key, div_lt_div_iff₀ (by positivity) h0]
  nlinarith [mul_pos (mul_pos h1 ht) h1f, mul_nonneg (mul_nonneg h1.le h0.le) hf0]

/-- C1: for a live pool with fee in `[0, 1)`, at least one level requested
and a positive size step, whenever the synthetic book is non-empty its
maximum bid price is strictly below its minimum ask price. -/
theorem amm_book_never_crosses (r0 r1 f : ℚ) (n : ℤ) (s : ℚ)
    (h0 : 0 < r0) (h1 : 0 < r1) (hf0 : 0 ≤ f) (hf1 : f < 1)
    (hn : 1 ≤ n) (hs : 0 < s) (bp ap : ℚ)
    (hb : ((calculate_amm_price_levels r0 r1 f n s).1.map Prod.fst).max? = some bp)
    (ha : ((calculate_amm_price_levels r0 r1 f n s).2.map Prod.fst).min? = some ap) :
    bp < ap := by
  have hcalc : calculate_amm_price_levels r0 r1 f n s =
      ammLoop r0 r1 (r0 * r1) f s 1 n.toNat := by
    rw [calculate_amm_price_levels,
      if_neg (not_or.mpr ⟨not_le.mpr h0, not_le.mpr h1⟩)]
  rw [hcalc] at hb ha
  have hbmem := List.max?_mem (fun a b => max_choice a b) hb
  have hamem := List.min?_mem (fun a b => min_choice a b) ha
  obtain ⟨pb, hpb, hfb⟩ := List.mem_map.mp hbmem
  obtain ⟨pa, hpa, hfa⟩ := List.mem_map.mp hamem
  obtain ⟨m, _, hmt, hmr, hpe⟩ := mem_ammLoop_bids r0 r1 (r0 * r1) f s n.toNat 1 pb hpb
  obtain ⟨m', _, hmt', hmr', hpe'⟩ := mem_ammLoop_asks r0 r1 (r0 * r1) f s n.toNat 1 pa hpa
  have hblt : bp < r1 / r0 := by
    rw [← hfb, hpe]
    exact bidFormula_lt_spot r0 r1 f (r0 * s * (m : ℚ)) h0 h1 hf0 hf1 hmt
  have halt : r1 / r0 < ap := by
    rw [← hfa, hpe']
    exact askFormula_gt_spot r0 r1 f (r0 * s * (m' : ℚ)) h0 h1 hf0 hf1 hmt' hmr'
  linarith

/-- Witness for C1 at `reserve0 = 10`, `reserve1 = 30`, `fee_rate = 0`,
one level, `size_step = 0.1`: best bid `30/11`, best ask `10/3`. -/
theorem amm_book_never_crosses_witness : (30 / 11 : ℚ) < 10 / 3 :=
  amm_book_never_crosses 10 30 0 1 (1 / 10) (by norm_num) (by norm_num) le_rfl
    (by norm_num) le_rfl (by norm_num) (30 / 11) (10 / 3)
    (by norm_num [calculate_amm_price_levels, ammLoop, List.max?])
    (by norm_num [calculate_amm_price_levels, ammLoop, List.min?])

end DexOrderBook

namespace DexOrderBook

/-- Folding `min` over a list keeps the seed when the seed is a lower
bound. -/
theorem foldl_min_eq_self : ∀ (l : List ℚ) (x : ℚ), (∀ y ∈ l, x ≤ y) → l.foldl min x = x
  | [], _, _ => rfl
  | y :: l, x, h => by
    rw [List.foldl_cons, min_eq_left (h y (List.mem_cons_self y l))]
    exact foldl_min_eq_self l x fun z hz => h z (List.mem_cons_of_mem y hz)

/-- Folding `max` over a list keeps the seed when the seed is an upper
bound. -/
theorem foldl_max_eq_self : ∀ (l : List ℚ) (x : ℚ), (∀ y ∈ l, y ≤ x) → l.foldl max x = x
  | [], _, _ => rfl
  | y :: l, x, h => by
    rw [List.foldl_cons, max_eq_left (h y (List.mem_cons_self y l))]
    exact foldl_max_eq_self l x fun z hz => h z (List.mem_cons_of_mem y hz)

/-- The head of a list is its minimum when it bounds the tail from below. -/
theorem min?_cons_of_le (x : ℚ) (l : List ℚ) (h : ∀ y ∈ l, x ≤ y) :
    (x :: l).min? = some x := by
  rw [List.min?_cons']
  exact congrArg some (foldl_min_eq_self l x h)

/-- The head of a list is its maximum when it bounds the tail from above. -/
theorem max?_cons_of_ge (x : ℚ) (l : List ℚ) (h : ∀ y ∈ l, y ≤ x) :
    (x :: l).max? = some x := by
  rw [List.max?_cons']
  exact congrArg some (foldl_max_eq_self l x h)

/-- The code's ask-price formula is monotone in the trade size on the
admissible range `0 < t ≤ t' < r0`. -/
theorem askFormula_mono (r0 r1 f t1 t2 : ℚ) (h0 : 0 < r0) (h1 : 0 < r1)
    (hf0 : 0 ≤ f) (hf1 : f < 1) (ht1 : 0 < t1) (h12 : t1 ≤ t2) (htr2 : 0 < r0 - t2) :
    (r0 * r1 / (r0 - t1) - r1) / (1 - f) / t1 ≤
      (r0 * r1 / (r0 - t2) - r1) / (1 - f) / t2 := by
  have h1f : (0 : ℚ) < 1 - f := by linarith
  have htr1 : (0 : ℚ) < r0 - t1 := by linarith
  have k1 : (r0 * r1 / (r0 - t1) - r1) / (1 - f) / t1 = r1 / ((r0 - t1) * (1 - f)) := by
    field_simp
    ring
  have k2 : (r0 * r1 / (r0 - t2) - r1) / (1 - f) / t2 = r1 / ((r0 - t2) * (1 - f)) := by
    have ht2 : (0 : ℚ) < t2 := lt_of_lt_of_le ht1 h12
    field_simp
    ring
  rw [k1, k2, div_le_div_iff₀ (by positivity) (by positivity)]
  nlinarith [mul_nonneg (mul_nonneg h1.le (sub_nonneg.mpr h12)) h1f.le]

/-- The code's bid-price formula is antitone in the trade size for
`0 < t ≤ t'`. -/
theorem bidFormula_anti (r0 r1 f t1 t2 : ℚ) (h0 : 0 < r0) (h1 : 0 < r1)
    (hf0 : 0 ≤ f) (hf1 : f < 1) (ht1 : 0 < t1) (h12 : t1 ≤ t2) :
    (r1 - r0 * r1 / (r0 + t2 * (1 - f))) / t2 ≤
      (r1 - r0 * r1 / (r0 + t1 * (1 - f))) / t1 := by
  have h1f : (0 : ℚ) < 1 - f := by linarith
  have ht2 : (0 : ℚ) < t2 := lt_of_lt_of_le ht1 h12
  have k1 : (r1 - r0 * r1 / (r0 + t1 * (1 - f))) / t1 = r1 * (1 - f) / (r0 + t1 * (1 - f)) := by
    field_simp
    ring
  have k2 : (r1 - r0 * r1 / (r0 + t2 * (1 - f))) / t2 = r1 * (1 - f) / (r0 + t2 * (1 - f)) := by
    field_simp
    ring
  rw [k1, k2, div_le_div_iff₀ (by positivity) (by positivity)]
  nlinarith [mul_nonneg (mul_nonneg (mul_nonneg h1.le h1f.le) (sub_nonneg.mpr h12)) h1f.le]

/-- When the first iteration passes both guards, the minimum ask price of
the generated book is the first iteration's ask price (larger trade sizes
only quote worse asks). -/
theorem ammLoop_asks_head_min (r0 r1 f s : ℚ) (n : ℕ) (h0 : 0 < r0) (h1 : 0 < r1)
    (hf0 : 0 ≤ f) (hf1 : f < 1) (hs : 0 < s) (hbr : 0 < r0 - r0 * s) :
    ((ammLoop r0 r1 (r0 * r1) f s 1 (n + 1)).2.map Prod.fst).min? =
      some ((r0 * r1 / (r0 - r0 * s) - r1) / (1 - f) / (r0 * s)) := by
  have ht : (0 : ℚ) < r0 * s := mul_pos h0 hs
  simp only [ammLoop, Nat.cast_one, mul_one, if_neg (not_le.mpr hbr), if_pos ht]
  rw [List.singleton_append, List.map_cons]
  apply min?_cons_of_le
  intro y hy
  obtain ⟨pt, hpt, hfst⟩ := List.mem_map.mp hy
  obtain ⟨m, hm, hmt, hmr, hpe⟩ := mem_ammLoop_asks r0 r1 (r0 * r1) f s n (1 + 1) pt hpt
  have hmQ : (1 : ℚ) ≤ (m : ℚ) := by
    exact_mod_cast le_trans (by norm_num) hm
  have hle : r0 * s ≤ r0 * s * (m : ℚ) := by nlinarith
  rw [← hfst, hpe]
  exact askFormula_mono r0 r1 f (r0 * s) (r0 * s * (m : ℚ)) h0 h1 hf0 hf1 ht hle hmr

/-- When the first iteration passes both guards, the maximum bid price of
the generated book is the first iteration's bid price. -/
theorem ammLoop_bids_head_max (r0 r1 f s : ℚ) (n : ℕ) (h0 : 0 < r0) (h1 : 0 < r1)
    (hf0 : 0 ≤ f) (hf1 : f < 1) (hs : 0 < s) (hbr : 0 < r0 - r0 * s) :
    ((ammLoop r0 r1 (r0 * r1) f s 1 (n + 1)).1.map Prod.fst).max? =
      some ((r1 - r0 * r1 / (r0 + r0 * s * (1 - f))) / (r0 * s)) := by
  have ht : (0 : ℚ) < r0 * s := mul_pos h0 hs
  simp only [ammLoop, Nat.cast_one, mul_one, if_neg (not_le.mpr hbr), if_pos ht]
  rw [List.singleton_append, List.map_cons]
  apply max?_cons_of_ge
  intro y hy
  obtain ⟨pt, hpt, hfst⟩ := List.mem_map.mp hy
  obtain ⟨m, hm, hmt, hmr, hpe⟩ := mem_ammLoop_bids r0 r1 (r0 * r1) f s n (1 + 1) pt hpt
  have hmQ : (1 : ℚ) ≤ (m : ℚ) := by
    exact_mod_cast le_trans (by norm_num) hm
  have hle : r0 * s ≤ r0 * s * (m : ℚ) := by nlinarith
  rw [← hfst, hpe]
  exact bidFormula_anti r0 r1 f (r0 * s) (r0 * s * (m : ℚ)) h0 h1 hf0 hf1 ht hle

/-- C5: for fixed live reserves, level count and size step, and two fee
rates `0 ≤ f1 < f2 < 1` at which `calculate_amm_price_levels` yields
non-empty books, the spread `min(askPrice) - max(bidPrice)` is strictly
larger at the higher fee. -/
theorem amm_spread_widens_with_fee (r0 r1 : ℚ) (n : ℤ) (s f1 f2 : ℚ)
    (h0 : 0 < r0) (h1 : 0 < r1) (hf0 : 0 ≤ f1) (h12 : f1 < f2) (hf2 : f2 < 1)
    (b1 a1 b2 a2 : ℚ)
    (hb1 : ((calculate_amm_price_levels r0 r1 f1 n s).1.map Prod.fst).max? = some b1)
    (ha1 : ((calculate_amm_price_levels r0 r1 f1 n s).2.map Prod.fst).min? = some a1)
    (hb2 : ((calculate_amm_price_levels r0 r1 f2 n s).1.map Prod.fst).max? = some b2)
    (ha2 : ((calculate_amm_price_levels r0 r1 f2 n s).2.map Prod.fst).min? = some a2) :
    a1 - b1 < a2 - b2 := by
  have h1f1 : (0 : ℚ) < 1 - f1 := by linarith
  have h1f2 : (0 : ℚ) < 1 - f2 := by linarith
  have hnotdeg : ¬(r0 ≤ 0 ∨ r1 ≤ 0) := not_or.mpr ⟨not_le.mpr h0, not_le.mpr h1⟩
  rw [calculate_amm_price_levels, if_neg hnotdeg] at hb1 ha1 hb2 ha2
  cases hfuel : n.toNat with
  | zero =>
    rw [hfuel] at hb1
    simp [ammLoop] at hb1
  | succ n' =>
    rw [hfuel] at hb1 ha1 hb2 ha2
    have hbmem := List.max?_mem (fun a b => max_choice a b) hb1
    obtain ⟨pb, hpb, hfb⟩ := List.mem_map.mp hbmem
    obtain ⟨m, h1m, hmt, hmr, hpe⟩ :=
      mem_ammLoop_bids r0 r1 (r0 * r1) f1 s (n' + 1) 1 pb hpb
    have hmQ : (1 : ℚ) ≤ (m : ℚ) := by exact_mod_cast h1m
    have hm0 : (0 : ℚ) < (m : ℚ) := lt_of_lt_of_le zero_lt_one hmQ
    have hs : (0 : ℚ) < s := by nlinarith [mul_pos h0 hm0]
    have hbr : (0 : ℚ) < r0 - r0 * s := by
      nlinarith [mul_nonneg (mul_pos h0 hs).le (sub_nonneg.mpr hmQ)]
    rw [ammLoop_asks_head_min r0 r1 f1 s n' h0 h1 hf0 (lt_trans h12 hf2) hs hbr] at ha1
    rw [ammLoop_asks_head_min r0 r1 f2 s n' h0 h1 (le_trans hf0 h12.le) hf2 hs hbr] at ha2
    rw [ammLoop_bids_head_max r0 r1 f1 s n' h0 h1 hf0 (lt_trans h12 hf2) hs hbr] at hb1
    rw [ammLoop_bids_head_max r0 r1 f2 s n' h0 h1 (le_trans hf0 h12.le) hf2 hs hbr] at hb2
    obtain rfl : a1 = (r0 * r1 / (r0 - r0 * s) - r1) / (1 - f1) / (r0 * s) :=
      (Option.some.inj ha1).symm
    obtain rfl : a2 = (r0 * r1 / (r0 - r0 * s) - r1) / (1 - f2) / (r0 * s) :=
      (Option.some.inj ha2).symm
    obtain rfl : b1 = (r1 - r0 * r1 / (r0 + r0 * s * (1 - f1))) / (r0 * s) :=
      (Option.some.inj hb1).symm
    obtain rfl : b2 = (r1 - r0 * r1 / (r0 + r0 * s * (1 - f2))) / (r0 * s) :=
      (Option.some.inj hb2).symm
    have ht : (0 : ℚ) < r0 * s := mul_pos h0 hs
    have hD1 : (0 : ℚ) < r0 + r0 * s * (1 - f1) := by positivity
    have hD2 : (0 : ℚ) < r0 + r0 * s * (1 - f2) := by positivity
    have ka1 : (r0 * r1 / (r0 - r0 * s) - r1) / (1 - f1) / (r0 * s) =
        r1 / ((r0 - r0 * s) * (1 - f1)) := by
      field_simp
      ring
    have ka2 : (r0 * r1 / (r0 - r0 * s) - r1) / (1 - f2) / (r0 * s) =
        r1 / ((r0 - r0 * s) * (1 - f2)) := by
      field_simp
      ring
    have kb1 : (r1 - r0 * r1 / (r0 + r0 * s * (1 - f1))) / (r0 * s) =
        r1 * (1 - f1) / (r0 + r0 * s * (1 - f1)) := by
      field_simp
      ring
    have kb2 : (r1 - r0 * r1 / (r0 + r0 * s * (1 - f2))) / (r0 * s) =
        r1 * (1 - f2) / (r0 + r0 * s * (1 - f2)) := by
      field_simp
      ring
    rw [ka1, ka2, kb1, kb2]
    have hA : r1 / ((r0 - r0 * s) * (1 - f1)) < r1 / ((r0 - r0 * s) * (1 - f2)) := by
      rw [div_lt_div_iff₀ (mul_pos hbr h1f1) (mul_pos hbr h1f2)]
      nlinarith [mul_pos (mul_pos h1 hbr) (sub_pos.mpr h12)]
    have hB : r1 * (1 - f2) / (r0 + r0 * s * (1 - f2)) <
        r1 * (1 - f1) / (r0 + r0 * s * (1 - f1)) := by
      rw [div_lt_div_iff₀ hD2 hD1]
      nlinarith [mul_pos (mul_pos h1 h0) (sub_pos.mpr h12)]
    linarith

/-- Witness for C5 at `reserve0 = 10`, `reserve1 = 30`, one level,
`size_step = 0.1`: raising the fee from `0` to `0.5` widens the spread
from `10/3 - 30/11` to `20/3 - 10/7`. -/
theorem amm_spread_widens_with_fee_witness :
    (10 / 3 : ℚ) - 30 / 11 < 20 / 3 - 10 / 7 :=
  amm_spread_widens_with_fee 10 30 1 (1 / 10) 0 (1 / 2) (by norm_num) (by norm_num)
    le_rfl (by norm_num) (by norm_num) (30 / 11) (10 / 3) (10 / 7) (20 / 3)
    (by norm_num [calculate_amm_price_levels, ammLoop, List.max?])
    (by norm_num [calculate_amm_price_levels, ammLoop, List.min?])
    (by norm_num [calculate_amm_price_levels, ammLoop, List.max?])
    (by norm_num [calculate_amm_price_levels, ammLoop, List.min?])

end DexOrderBook
